import Mathlib

/-!
Verification of the Cordia coordination servers (signaling-server,
beacon-server and the desktop client's health checks) against their
natural-language specification.

The Rust sources are shallowly embedded: `HashMap` becomes an association
list with in-place update (`aupdate`) and filter-based removal (`aerase`),
`HashSet` becomes a duplicate-free-on-insert list (`sinsert` / `sremove`),
and `u32` counters become `Nat` reduced modulo `2 ^ 32` at each increment.
Strings are Lean `String`s; the Rust `str` operations needed by the client
health checks and the IP middleware are re-implemented structurally over
`List Char` so that concrete inputs evaluate inside the kernel.
-/

/-- Association-list lookup, first matching key wins
(embeds `HashMap::get`). -/
def alookup {α β : Type} [DecidableEq α] : List (α × β) → α → Option β
  | [], _ => none
  | (k, v) :: t, key => if k = key then some v else alookup t key

/-- Association-list insert/overwrite in place
(embeds `HashMap::insert`; keeps the position of an existing key so that
re-inserting the stored value is literally the identity). -/
def aupdate {α β : Type} [DecidableEq α] : List (α × β) → α → β → List (α × β)
  | [], key, v => [(key, v)]
  | (k, w) :: t, key, v => if k = key then (key, v) :: t else (k, w) :: aupdate t key v

/-- Association-list removal of a key (embeds `HashMap::remove`). -/
def aerase {α β : Type} [DecidableEq α] (l : List (α × β)) (key : α) : List (α × β) :=
  l.filter (fun e => ¬ e.1 = key)

/-- Set insert (embeds `HashSet::insert`): no-op when the element is
already present. -/
def sinsert (s : List String) (x : String) : List String :=
  if x ∈ s then s else s ++ [x]

/-- Set removal (embeds `HashSet::remove`). -/
def sremove (s : List String) (x : String) : List String :=
  s.filter (fun y => ¬ y = x)

/-- Value of a set-valued map entry, defaulting to the empty set
(embeds reading `map[k]` where a missing key denotes the empty set). -/
def sets_get {α : Type} [DecidableEq α] (m : List (α × List String)) (k : α) : List String :=
  (alookup m k).getD []

/-- Embeds the Rust pattern `map.entry(k).or_insert_with(HashSet::new).insert(x)`. -/
def entry_insert {α : Type} [DecidableEq α] (m : List (α × List String)) (k : α) (x : String) :
    List (α × List String) :=
  aupdate m k (sinsert (sets_get m k) x)

/-- Embeds the Rust pattern used by `SignalingState::unregister_peer`:
`if let Some(s) = map.get_mut(k) { s.remove(x); if s.is_empty() { map.remove(k); } }`. -/
def remove_cleanup {α : Type} [DecidableEq α] (m : List (α × List String)) (k : α) (x : String) :
    List (α × List String) :=
  match alookup m k with
  | some s =>
      let s' := sremove s x
      if s' = [] then aerase m k else aupdate m k s'
  | none => m

-- Basic lemmas about the primitives.

theorem alookup_aupdate_self {α β : Type} [DecidableEq α] (l : List (α × β)) (k : α) (v : β) :
    alookup (aupdate l k v) k = some v := by
  induction l with
  | nil => simp [aupdate, alookup]
  | cons e t ih =>
      obtain ⟨a, b⟩ := e
      by_cases h : a = k
      · simp [aupdate, alookup, h]
      · simpa [aupdate, alookup, h] using ih

theorem alookup_aupdate_ne {α β : Type} [DecidableEq α] (l : List (α × β)) (k k' : α) (v : β)
    (h : ¬ k' = k) : alookup (aupdate l k v) k' = alookup l k' := by
  have h' : ¬ k = k' := fun hc => h hc.symm
  induction l with
  | nil => simp [aupdate, alookup, h']
  | cons e t ih =>
      obtain ⟨a, b⟩ := e
      by_cases he : a = k
      · subst he
        simp [aupdate, alookup, h']
      · by_cases ha : a = k'
        · simp [aupdate, alookup, he, ha, h]
        · simp [aupdate, alookup, he, ha, ih]

theorem alookup_aerase_self {α β : Type} [DecidableEq α] (l : List (α × β)) (k : α) :
    alookup (aerase l k) k = none := by
  induction l with
  | nil => rfl
  | cons e t ih =>
      obtain ⟨a, b⟩ := e
      by_cases he : a = k
      · simpa [aerase, List.filter_cons, he] using ih
      · simpa [aerase, List.filter_cons, he, alookup] using ih

theorem alookup_aerase_ne {α β : Type} [DecidableEq α] (l : List (α × β)) (k k' : α)
    (h : ¬ k' = k) : alookup (aerase l k) k' = alookup l k' := by
  induction l with
  | nil => rfl
  | cons e t ih =>
      obtain ⟨a, b⟩ := e
      have hk : ¬ k = k' := fun hc => h hc.symm
      by_cases he : a = k
      · simpa [aerase, List.filter_cons, he, alookup, hk] using ih
      · by_cases ha : a = k'
        · simp [aerase, List.filter_cons, he, alookup, ha, h]
        · simpa [aerase, List.filter_cons, he, alookup, ha] using ih

theorem aupdate_self_of_lookup {α β : Type} [DecidableEq α] (l : List (α × β)) (k : α) (v : β)
    (h : alookup l k = some v) : aupdate l k v = l := by
  induction l with
  | nil => simp [alookup] at h
  | cons e t ih =>
      obtain ⟨a, b⟩ := e
      by_cases he : a = k
      · subst he
        simp [alookup] at h
        simp [aupdate, h]
      · simp [alookup, he] at h
        simp [aupdate, he, ih h]

theorem mem_aupdate {α β : Type} [DecidableEq α] (l : List (α × β)) (k : α) (v : β)
    (e : α × β) (h : e ∈ aupdate l k v) : e = (k, v) ∨ e ∈ l := by
  induction l with
  | nil => simpa [aupdate] using h
  | cons f t ih =>
      obtain ⟨a, b⟩ := f
      by_cases hf : a = k
      · simp [aupdate, hf] at h
        rcases h with h | h
        · exact Or.inl (by simp [h])
        · exact Or.inr (List.mem_cons_of_mem _ h)
      · simp [aupdate, hf] at h
        rcases h with h | h
        · exact Or.inr (by simp [h])
        · rcases ih h with h' | h'
          · exact Or.inl h'
          · exact Or.inr (List.mem_cons_of_mem _ h')

theorem mem_aerase {α β : Type} [DecidableEq α] (l : List (α × β)) (k : α)
    (e : α × β) (h : e ∈ aerase l k) : e ∈ l :=
  List.mem_of_mem_filter h

theorem mem_sinsert_self (s : List String) (x : String) : x ∈ sinsert s x := by
  by_cases h : x ∈ s <;> simp [sinsert, h]

theorem mem_sinsert_of_mem (s : List String) (x y : String) (h : y ∈ s) :
    y ∈ sinsert s x := by
  by_cases hx : x ∈ s <;> simp [sinsert, hx, h]

theorem sinsert_ne_nil (s : List String) (x : String) : sinsert s x ≠ [] := by
  by_cases h : x ∈ s
  · simp [sinsert, h]
    intro hc
    exact absurd (hc ▸ h) (List.not_mem_nil x)
  · simp [sinsert, h]

theorem sinsert_of_mem (s : List String) (x : String) (h : x ∈ s) : sinsert s x = s := by
  simp [sinsert, h]

theorem mem_sremove_iff (s : List String) (x y : String) :
    y ∈ sremove s x ↔ y ∈ s ∧ ¬ y = x := by
  simp [sremove, List.mem_filter]

theorem sets_get_entry_insert {α : Type} [DecidableEq α]
    (m : List (α × List String)) (k k' : α) (x : String) :
    sets_get (entry_insert m k x) k'
      = if k' = k then sinsert (sets_get m k) x else sets_get m k' := by
  by_cases h : k' = k
  · simp [entry_insert, sets_get, h, alookup_aupdate_self]
  · simp [entry_insert, sets_get, h, alookup_aupdate_ne _ _ _ _ h]

theorem sets_get_remove_cleanup {α : Type} [DecidableEq α]
    (m : List (α × List String)) (k k' : α) (x : String) :
    sets_get (remove_cleanup m k x) k'
      = if k' = k then sremove (sets_get m k) x else sets_get m k' := by
  unfold remove_cleanup
  cases hm : alookup m k with
  | none =>
      by_cases h : k' = k
      · simp [sets_get, h, hm, sremove]
      · simp [sets_get, h]
  | some s =>
      by_cases hs : sremove s x = []
      · by_cases h : k' = k
        · simp [hs, sets_get, h, alookup_aerase_self, hm]
        · simp [hs, sets_get, h, alookup_aerase_ne _ _ _ h]
      · by_cases h : k' = k
        · simp [hs, sets_get, h, alookup_aupdate_self, hm]
        · simp [hs, sets_get, h, alookup_aupdate_ne _ _ _ _ h]

theorem entry_insert_nonempty {α : Type} [DecidableEq α]
    (m : List (α × List String)) (k : α) (x : String)
    (hm : ∀ e ∈ m, e.2 ≠ []) : ∀ e ∈ entry_insert m k x, e.2 ≠ [] := by
  intro e he
  rcases mem_aupdate _ _ _ _ he with h | h
  · subst h; exact sinsert_ne_nil _ _
  · exact hm e h

theorem remove_cleanup_nonempty {α : Type} [DecidableEq α]
    (m : List (α × List String)) (k : α) (x : String)
    (hm : ∀ e ∈ m, e.2 ≠ []) : ∀ e ∈ remove_cleanup m k x, e.2 ≠ [] := by
  intro e he
  unfold remove_cleanup at he
  cases hlk : alookup m k with
  | none => rw [hlk] at he; exact hm e he
  | some s =>
      rw [hlk] at he
      by_cases hs : sremove s x = []
      · simp only [hs, if_pos rfl] at he
        exact hm e (mem_aerase _ _ _ he)
      · simp only [hs, if_neg hs] at he
        rcases mem_aupdate _ _ _ _ he with h | h
        · subst h; exact hs
        · exact hm e h

-- ---------------------------------------------------------------------------
-- SignalingState (src/signaling-server/src/state/signaling.rs)
-- ---------------------------------------------------------------------------

/-- Entry of `SignalingState.peers` (struct `PeerConnection`). -/
structure PeerConnection where
  peer_id : String
  server_id : String
  signing_pubkey : Option String
  conn_id : String
deriving DecidableEq, Repr

/-- WebSocket signaling state (struct `SignalingState`). `peer_senders`
maps peers to live WebSocket senders; only its key set is relevant to the
state transitions, so it is embedded as the list of peer ids that hold a
sender. -/
structure SignalingState where
  peers : List (String × PeerConnection)
  servers : List (String × List String)
  signing_servers : List (String × List String)
  peer_senders : List String
  conn_peers : List (String × List String)
deriving DecidableEq, Repr

/-- Embeds `SignalingState::new`. -/
def SignalingState.new : SignalingState :=
  { peers := [], servers := [], signing_servers := [], peer_senders := [], conn_peers := [] }

/-- Embeds `SignalingState::validate_peer_connection` (signaling.rs:36-41). -/
def validate_peer_connection (st : SignalingState) (peer_id conn_id : String) : Bool :=
  match alookup st.peers peer_id with
  | some peer => peer.conn_id = conn_id
  | none => false

/-- Embeds `SignalingState::register_peer` (signaling.rs:43-82); returns the
new state together with the returned vector (the other peers already in
`servers[server_id]`). -/
def register_peer (st : SignalingState) (peer_id server_id : String)
    (signing_pubkey : Option String) (conn_id : String) : SignalingState × List String :=
  let peers_in_server := sinsert (sets_get st.servers server_id) peer_id
  ({ peers := aupdate st.peers peer_id
        { peer_id := peer_id, server_id := server_id,
          signing_pubkey := signing_pubkey, conn_id := conn_id },
     conn_peers := entry_insert st.conn_peers conn_id peer_id,
     servers := aupdate st.servers server_id peers_in_server,
     signing_servers :=
       match signing_pubkey with
       | some spk => entry_insert st.signing_servers spk peer_id
       | none => st.signing_servers,
     peer_senders := st.peer_senders },
   peers_in_server.filter (fun p => ¬ p = peer_id))

/-- Embeds `SignalingState::unregister_peer` (signaling.rs:84-106). Note the
source never touches `conn_peers` here, and removes the peer's sender in
both branches. -/
def unregister_peer (st : SignalingState) (peer_id : String) : SignalingState :=
  match alookup st.peers peer_id with
  | some conn =>
      { peers := aerase st.peers peer_id,
        servers := remove_cleanup st.servers conn.server_id peer_id,
        signing_servers :=
          match conn.signing_pubkey with
          | some spk => remove_cleanup st.signing_servers spk peer_id
          | none => st.signing_servers,
        peer_senders := sremove st.peer_senders peer_id,
        conn_peers := st.conn_peers }
  | none => { st with peer_senders := sremove st.peer_senders peer_id }

/-- One call of the two state-mutating peer operations of `SignalingState`. -/
inductive SigOp where
  | reg (peer_id server_id : String) (signing_pubkey : Option String) (conn_id : String)
  | unreg (peer_id : String)
deriving DecidableEq, Repr

/-- Applies one operation (dropping `register_peer`'s return value). -/
def sigApply (st : SignalingState) : SigOp → SignalingState
  | SigOp.reg p s k c => (register_peer st p s k c).1
  | SigOp.unreg p => unregister_peer st p

/-- Applies a finite sequence of operations in order. -/
def sigRun (st : SignalingState) (ops : List SigOp) : SignalingState :=
  ops.foldl sigApply st

/-- Forward half of invariant S1: every registered peer appears in the
index sets named by its own `PeerConnection`. -/
def S1_forward (st : SignalingState) : Prop :=
  ∀ p pc, alookup st.peers p = some pc →
    p ∈ sets_get st.conn_peers pc.conn_id ∧
    p ∈ sets_get st.servers pc.server_id ∧
    ∀ k, pc.signing_pubkey = some k → p ∈ sets_get st.signing_servers k

/-- Emptiness half of invariant S1 for `servers` and `signing_servers`:
no retained index set is empty. -/
def no_empty_sets (st : SignalingState) : Prop :=
  (∀ e ∈ st.servers, e.2 ≠ []) ∧ (∀ e ∈ st.signing_servers, e.2 ≠ [])

theorem register_preserves_S1_forward (st : SignalingState) (p s : String)
    (k : Option String) (c : String) (hf : S1_forward st) :
    S1_forward (register_peer st p s k c).1 := by
  intro p' pc' hlk
  simp only [register_peer] at hlk ⊢
  by_cases hp : p' = p
  · subst hp
    rw [alookup_aupdate_self] at hlk
    cases hlk
    dsimp only
    refine ⟨?_, ?_, ?_⟩
    · rw [sets_get_entry_insert]
      simp [mem_sinsert_self]
    · simp only [sets_get, alookup_aupdate_self, Option.getD_some]
      exact mem_sinsert_self _ _
    · intro key hkey
      have hkk : k = some key := hkey
      subst hkk
      dsimp only
      rw [sets_get_entry_insert]
      simp [mem_sinsert_self]
  · rw [alookup_aupdate_ne _ _ _ _ hp] at hlk
    obtain ⟨h1, h2, h3⟩ := hf p' pc' hlk
    refine ⟨?_, ?_, ?_⟩
    · rw [sets_get_entry_insert]
      by_cases hc : pc'.conn_id = c
      · simp only [hc, if_pos rfl]
        exact mem_sinsert_of_mem _ _ _ (hc ▸ h1)
      · simp only [if_neg hc]
        exact h1
    · by_cases hsrv : pc'.server_id = s
      · simp only [sets_get, hsrv, alookup_aupdate_self, Option.getD_some]
        exact mem_sinsert_of_mem _ _ _ (hsrv ▸ h2)
      · simp only [sets_get, alookup_aupdate_ne _ _ _ _ hsrv]
        exact h2
    · intro key hkey
      cases k with
      | none => exact h3 key hkey
      | some spk =>
          rw [sets_get_entry_insert]
          by_cases hk : key = spk
          · simp only [hk, if_pos rfl]
            exact mem_sinsert_of_mem _ _ _ (hk ▸ h3 key hkey)
          · simp only [if_neg hk]
            exact h3 key hkey

theorem register_preserves_no_empty (st : SignalingState) (p s : String)
    (k : Option String) (c : String) (hn : no_empty_sets st) :
    no_empty_sets (register_peer st p s k c).1 := by
  obtain ⟨hn1, hn2⟩ := hn
  constructor
  · intro e he
    simp only [register_peer] at he
    rcases mem_aupdate _ _ _ _ he with h | h
    · subst h; exact sinsert_ne_nil _ _
    · exact hn1 e h
  · intro e he
    simp only [register_peer] at he
    cases k with
    | none => exact hn2 e he
    | some spk => exact entry_insert_nonempty _ _ _ hn2 e he

theorem unregister_preserves_S1_forward (st : SignalingState) (q : String)
    (hf : S1_forward st) : S1_forward (unregister_peer st q) := by
  unfold unregister_peer
  cases hq : alookup st.peers q with
  | none =>
      dsimp only
      exact hf
  | some conn =>
      dsimp only
      intro p' pc' hlk
      by_cases hp : p' = q
      · subst hp
        rw [alookup_aerase_self] at hlk
        cases hlk
      · rw [alookup_aerase_ne _ _ _ hp] at hlk
        obtain ⟨h1, h2, h3⟩ := hf p' pc' hlk
        refine ⟨h1, ?_, ?_⟩
        · rw [sets_get_remove_cleanup]
          by_cases hsrv : pc'.server_id = conn.server_id
          · simp only [hsrv, if_pos rfl]
            exact (mem_sremove_iff _ _ _).mpr ⟨hsrv ▸ h2, hp⟩
          · simp only [if_neg hsrv]
            exact h2
        · intro key hkey
          dsimp only
          cases hsp : conn.signing_pubkey with
          | none => exact h3 key hkey
          | some spk =>
              rw [sets_get_remove_cleanup]
              by_cases hk : key = spk
              · simp only [hk, if_pos rfl]
                exact (mem_sremove_iff _ _ _).mpr ⟨hk ▸ h3 key hkey, hp⟩
              · simp only [if_neg hk]
                exact h3 key hkey

theorem unregister_preserves_no_empty (st : SignalingState) (q : String)
    (hn : no_empty_sets st) : no_empty_sets (unregister_peer st q) := by
  obtain ⟨hn1, hn2⟩ := hn
  unfold unregister_peer
  cases hq : alookup st.peers q with
  | none => exact ⟨hn1, hn2⟩
  | some conn =>
      dsimp only
      constructor
      · exact remove_cleanup_nonempty _ _ _ hn1
      · cases conn.signing_pubkey with
        | none => exact hn2
        | some spk => exact remove_cleanup_nonempty _ _ _ hn2

theorem sigRun_preserves (st : SignalingState) (ops : List SigOp)
    (h : S1_forward st ∧ no_empty_sets st) :
    S1_forward (sigRun st ops) ∧ no_empty_sets (sigRun st ops) := by
  induction ops generalizing st with
  | nil => exact h
  | cons op rest ih =>
      apply ih
      cases op with
      | reg p s k c =>
          exact ⟨register_preserves_S1_forward _ _ _ _ _ h.1,
                 register_preserves_no_empty _ _ _ _ _ h.2⟩
      | unreg p =>
          exact ⟨unregister_preserves_S1_forward _ _ h.1,
                 unregister_preserves_no_empty _ _ h.2⟩

/-- C1 (amended): after any finite sequence of `register_peer` and
`unregister_peer` calls starting from `SignalingState::new`, every
`peer_id` in `peers` is a member of `conn_peers[peers[peer_id].conn_id]`,
of `servers[peers[peer_id].server_id]`, and, when a signing key is
present, of `signing_servers[key]`; and no retained set in `servers` or
`signing_servers` is empty. (The converse direction of the original
claim — that no index set contains a peer absent from `peers` — fails on
the code; see the counterexample.) -/
theorem signaling_index_consistency (ops : List SigOp) :
    S1_forward (sigRun SignalingState.new ops) ∧
      no_empty_sets (sigRun SignalingState.new ops) := by
  apply sigRun_preserves
  constructor
  · intro p pc hlk
    simp [SignalingState.new, alookup] at hlk
  · constructor <;> intro e he <;> simp [SignalingState.new] at he

/-- C1 counterexample: registering peer `"p"` and then unregistering it
leaves `"p"` inside `conn_peers["c"]` even though `"p"` is no longer in
`peers` (`unregister_peer` never prunes `conn_peers`), so the converse
clause of the claim is false. -/
theorem signaling_index_consistency_cex :
    "p" ∈ sets_get (sigRun SignalingState.new
        [SigOp.reg "p" "s" none "c", SigOp.unreg "p"]).conn_peers "c" ∧
      alookup (sigRun SignalingState.new
        [SigOp.reg "p" "s" none "c", SigOp.unreg "p"]).peers "p" = none := by
  constructor <;> decide

theorem mem_sets_get_lookup {α : Type} [DecidableEq α] (m : List (α × List String)) (k : α)
    (x : String) (h : x ∈ sets_get m k) : alookup m k = some (sets_get m k) := by
  unfold sets_get at h ⊢
  cases hcc : alookup m k with
  | none => simp_all
  | some v => rfl

theorem entry_insert_of_mem {α : Type} [DecidableEq α] (m : List (α × List String)) (k : α)
    (x : String) (h : x ∈ sets_get m k) : entry_insert m k x = m := by
  unfold entry_insert
  rw [sinsert_of_mem _ _ h]
  exact aupdate_self_of_lookup _ _ _ (mem_sets_get_lookup _ _ _ h)

/-- C2 (amended): if `peer_id` is registered as `(s1, k1, c1)`, calling
`register_peer(peer_id, s2, k2, c2)` overwrites the primary `peers` record
to `(s2, k2, c2)` but does **not** remove the previous binding: the peer
stays in `conn_peers[c1]`, in `servers[s1]` and in `signing_servers[k1]`.
Re-registering with identical arguments from the same connection leaves
the state unchanged (idempotent). -/
theorem register_peer_rebind (st : SignalingState) (p s1 s2 : String)
    (k1 k2 : Option String) (c1 c2 : String)
    (hpeers : alookup st.peers p =
      some { peer_id := p, server_id := s1, signing_pubkey := k1, conn_id := c1 })
    (hconn : p ∈ sets_get st.conn_peers c1)
    (hsrv : p ∈ sets_get st.servers s1)
    (hsign : ∀ key, k1 = some key → p ∈ sets_get st.signing_servers key) :
    (alookup ((register_peer st p s2 k2 c2).1).peers p =
        some { peer_id := p, server_id := s2, signing_pubkey := k2, conn_id := c2 } ∧
      p ∈ sets_get ((register_peer st p s2 k2 c2).1).conn_peers c1 ∧
      p ∈ sets_get ((register_peer st p s2 k2 c2).1).servers s1 ∧
      ∀ key, k1 = some key → p ∈ sets_get ((register_peer st p s2 k2 c2).1).signing_servers key) ∧
    (s2 = s1 → k2 = k1 → c2 = c1 → (register_peer st p s2 k2 c2).1 = st) := by
  constructor
  · refine ⟨?_, ?_, ?_, ?_⟩
    · simp only [register_peer]
      exact alookup_aupdate_self _ _ _
    · simp only [register_peer]
      rw [sets_get_entry_insert]
      by_cases hc : c1 = c2
      · simp only [hc, if_pos rfl]
        exact mem_sinsert_of_mem _ _ _ (hc ▸ hconn)
      · simp only [if_neg hc]
        exact hconn
    · simp only [register_peer]
      by_cases hs : s1 = s2
      · simp only [sets_get, hs, alookup_aupdate_self, Option.getD_some]
        exact mem_sinsert_of_mem _ _ _ (hs ▸ hsrv)
      · simp only [sets_get, alookup_aupdate_ne _ _ _ _ hs]
        exact hsrv
    · intro key hkey
      simp only [register_peer]
      cases k2 with
      | none => exact hsign key hkey
      | some spk =>
          dsimp only
          rw [sets_get_entry_insert]
          by_cases hk : key = spk
          · simp only [hk, if_pos rfl]
            exact mem_sinsert_of_mem _ _ _ (hk ▸ hsign key hkey)
          · simp only [if_neg hk]
            exact hsign key hkey
  · intro hs hk hc
    subst hs; subst hk; subst hc
    simp only [register_peer]
    rw [aupdate_self_of_lookup _ _ _ hpeers, entry_insert_of_mem _ _ _ hconn]
    rw [sinsert_of_mem _ _ hsrv, aupdate_self_of_lookup _ _ _ (mem_sets_get_lookup _ _ _ hsrv)]
    cases hk1 : k2 with
    | none => rfl
    | some spk =>
        dsimp only
        rw [entry_insert_of_mem _ _ _ (hsign spk hk1)]

/-- C2 counterexample: after registering `"p"` from connection `"c1"` in
server `"s1"` with signing key `"k1"` and then re-registering the same
peer from connection `"c2"` in server `"s2"` with key `"k2"`, the peer is
still a member of `conn_peers["c1"]`, `servers["s1"]` and
`signing_servers["k1"]`, contradicting the claim that the previous
binding is first removed. -/
theorem register_peer_rebind_cex :
    "p" ∈ sets_get (sigRun SignalingState.new
        [SigOp.reg "p" "s1" (some "k1") "c1",
         SigOp.reg "p" "s2" (some "k2") "c2"]).conn_peers "c1" ∧
      "p" ∈ sets_get (sigRun SignalingState.new
        [SigOp.reg "p" "s1" (some "k1") "c1",
         SigOp.reg "p" "s2" (some "k2") "c2"]).servers "s1" ∧
      "p" ∈ sets_get (sigRun SignalingState.new
        [SigOp.reg "p" "s1" (some "k1") "c1",
         SigOp.reg "p" "s2" (some "k2") "c2"]).signing_servers "k1" ∧
      ("c2" : String) ≠ "c1" ∧ ("s2" : String) ≠ "s1" ∧
      (some "k2" : Option String) ≠ some "k1" := by
  refine ⟨by decide, by decide, by decide, by decide, by decide, by decide⟩

/-- State with the single peer `"p"` registered from `"c1"`, used by the
C2 witness. -/
def rebindDemoState : SignalingState :=
  (register_peer SignalingState.new "p" "s1" (some "k1") "c1").1

/-- C2 witness: concrete instantiation of `register_peer_rebind` on the
one-peer state, discharging every hypothesis. -/
theorem register_peer_rebind_witness :
    alookup rebindDemoState.peers "p" =
        some { peer_id := "p", server_id := "s1", signing_pubkey := some "k1", conn_id := "c1" } ∧
      ((alookup ((register_peer rebindDemoState "p" "s2" (some "k2") "c2").1).peers "p" =
            some { peer_id := "p", server_id := "s2", signing_pubkey := some "k2", conn_id := "c2" } ∧
          "p" ∈ sets_get ((register_peer rebindDemoState "p" "s2" (some "k2") "c2").1).conn_peers "c1" ∧
          "p" ∈ sets_get ((register_peer rebindDemoState "p" "s2" (some "k2") "c2").1).servers "s1" ∧
          ∀ key, (some "k1" : Option String) = some key →
            "p" ∈ sets_get ((register_peer rebindDemoState "p" "s2" (some "k2") "c2").1).signing_servers key) ∧
        (("s2" : String) = "s1" → (some "k2" : Option String) = some "k1" → ("c2" : String) = "c1" →
          (register_peer rebindDemoState "p" "s2" (some "k2") "c2").1 = rebindDemoState)) :=
  ⟨by decide,
   register_peer_rebind rebindDemoState "p" "s1" "s2" (some "k1") (some "k2") "c1" "c2"
     (by decide) (by decide) (by decide) (by decide)⟩

/-- C3 (confirmed): `validate_peer_connection(peer_id, conn_id)` returns
true iff `peer_id` is present in `peers` with `conn_id` equal to the
stored connection id; in particular it returns false whenever the peer is
not registered. -/
theorem validate_peer_connection_spec (st : SignalingState) (peer_id conn_id : String) :
    (validate_peer_connection st peer_id conn_id = true ↔
      ∃ pc, alookup st.peers peer_id = some pc ∧ pc.conn_id = conn_id) ∧
    (alookup st.peers peer_id = none → validate_peer_connection st peer_id conn_id = false) := by
  constructor
  · unfold validate_peer_connection
    cases h : alookup st.peers peer_id with
    | none => simp
    | some pc => simp [h]
  · intro h
    unfold validate_peer_connection
    rw [h]

/-- C3 witness: concrete instantiation of `validate_peer_connection_spec`
on a one-peer state: validation succeeds from the registered connection
and the unregistered-peer clause applies to a fresh peer id. -/
theorem validate_peer_connection_witness :
    validate_peer_connection (sigRun SignalingState.new
        [SigOp.reg "p" "s" none "c"]) "p" "c" = true ∧
      validate_peer_connection (sigRun SignalingState.new
        [SigOp.reg "p" "s" none "c"]) "q" "c" = false :=
  ⟨((validate_peer_connection_spec _ "p" "c").1).mpr
      ⟨{ peer_id := "p", server_id := "s", signing_pubkey := none, conn_id := "c" },
       by decide, by decide⟩,
   (validate_peer_connection_spec _ "q" "c").2 (by decide)⟩

-- ---------------------------------------------------------------------------
-- VoiceState (src/beacon-server/src/state/voice.rs)
-- ---------------------------------------------------------------------------

/-- Entry of a voice chat (struct `VoicePeer`). -/
structure VoicePeer where
  peer_id : String
  user_id : String
  conn_id : String
deriving DecidableEq, Repr

/-- Info about a voice peer returned to clients (struct `VoicePeerInfo`). -/
structure VoicePeerInfo where
  peer_id : String
  user_id : String
deriving DecidableEq, Repr

/-- Voice chat state (struct `VoiceState`). -/
structure VoiceState where
  voice_chats : List ((String × String) × List VoicePeer)
  server_signing_pubkeys : List (String × String)
deriving DecidableEq, Repr

/-- Embeds `VoiceState::new`. -/
def VoiceState.new : VoiceState :=
  { voice_chats := [], server_signing_pubkeys := [] }

/-- Embeds `VoiceState::register_voice_peer` (voice.rs:30-59): drop any
entry with the same `user_id`, push the new entry, return the other peers. -/
def register_voice_peer (st : VoiceState) (peer_id user_id server_id chat_id conn_id : String) :
    VoiceState × List VoicePeerInfo :=
  let key := (server_id, chat_id)
  let peers0 := (alookup st.voice_chats key).getD []
  let peers1 := peers0.filter (fun p => ¬ p.user_id = user_id)
  let peers2 := peers1 ++ [{ peer_id := peer_id, user_id := user_id, conn_id := conn_id }]
  ({ st with voice_chats := aupdate st.voice_chats key peers2 },
   (peers2.filter (fun p => ¬ p.peer_id = peer_id)).map
     (fun p => { peer_id := p.peer_id, user_id := p.user_id }))

/-- Per-chat body of `VoiceState::handle_voice_disconnect`
(voice.rs:85-95): collect the `(peer_id, user_id)` pairs of entries on the
dying connection, then remove entries by `peer_id`, one retain pass per
collected pair. -/
def disconnect_chat (conn : String) (peers : List VoicePeer) :
    List VoicePeer × List (String × String) :=
  let toRemove := (peers.filter (fun p => p.conn_id = conn)).map (fun p => (p.peer_id, p.user_id))
  (toRemove.foldl (fun ps pr => ps.filter (fun p => ¬ p.peer_id = pr.1)) peers, toRemove)

/-- Embeds `VoiceState::handle_voice_disconnect` (voice.rs:81-101). -/
def handle_voice_disconnect (st : VoiceState) (conn : String) :
    VoiceState × List (String × String × String × String) :=
  let processed := st.voice_chats.map (fun e => (e.1, (disconnect_chat conn e.2).1))
  let removed := st.voice_chats.flatMap (fun e =>
    ((disconnect_chat conn e.2).2).map (fun pr => (e.1.1, e.1.2, pr.1, pr.2)))
  ({ st with voice_chats := processed.filter (fun e => ¬ e.2 = []) }, removed)

theorem filter_pred_not_pred {α : Type} (q : α → Prop) [DecidablePred q] (l : List α) :
    (l.filter (fun a => ¬ q a)).filter (fun a => q a) = [] := by
  induction l with
  | nil => rfl
  | cons x t ih => by_cases hx : q x <;> simp [hx, ih]

/-- C4 (confirmed): joining a chat where the same `user_id` is already
present (under a prior, different peer id) leaves exactly one entry for
that user, carrying the new `peer_id` and connection; the returned list is
exactly the other peers of the chat (the old entries of other users) and
excludes the newcomer. -/
theorem register_voice_peer_reconnect (st : VoiceState) (pid2 uid sid cid conn2 : String)
    (h1 : ∃ q ∈ (alookup st.voice_chats (sid, cid)).getD [], q.user_id = uid)
    (h2 : ∀ q ∈ (alookup st.voice_chats (sid, cid)).getD [], ¬ q.peer_id = pid2) :
    ((alookup ((register_voice_peer st pid2 uid sid cid conn2).1).voice_chats (sid, cid)).getD
          []).filter (fun p => p.user_id = uid)
        = [{ peer_id := pid2, user_id := uid, conn_id := conn2 }] ∧
      (register_voice_peer st pid2 uid sid cid conn2).2
        = (((alookup st.voice_chats (sid, cid)).getD []).filter (fun q => ¬ q.user_id = uid)).map
            (fun p => { peer_id := p.peer_id, user_id := p.user_id }) ∧
      ∀ r ∈ (register_voice_peer st pid2 uid sid cid conn2).2, ¬ r.peer_id = pid2 := by
  refine ⟨?_, ?_, ?_⟩
  · simp only [register_voice_peer, alookup_aupdate_self, Option.getD_some]
    rw [List.filter_append]
    rw [filter_pred_not_pred (fun p : VoicePeer => p.user_id = uid)]
    simp
  · simp only [register_voice_peer]
    rw [List.filter_append]
    have hone : ([{ peer_id := pid2, user_id := uid, conn_id := conn2 }] :
        List VoicePeer).filter (fun p => ¬ p.peer_id = pid2) = [] := by simp
    rw [hone, List.append_nil]
    congr 1
    apply List.filter_eq_self.mpr
    intro p hp
    have hpo := List.mem_of_mem_filter hp
    simpa using h2 p hpo
  · intro r hr
    simp only [register_voice_peer, List.mem_map, List.mem_filter,
      List.mem_append] at hr
    obtain ⟨p, ⟨hmem, hpid⟩, heq⟩ := hr
    subst heq
    simpa using hpid

/-- C4 witness: concrete reconnect: user `"u"` joined as `"pA1"`, rejoins
as `"pA2"`; the chat holds exactly the new entry and the returned list is
empty. -/
theorem register_voice_peer_reconnect_witness :
    (∃ q ∈ (alookup (VoiceState.mk [(("s", "c"),
          [{ peer_id := "pA1", user_id := "u", conn_id := "c1" }])] []).voice_chats
          ("s", "c")).getD [], q.user_id = "u") ∧
      (∀ q ∈ (alookup (VoiceState.mk [(("s", "c"),
          [{ peer_id := "pA1", user_id := "u", conn_id := "c1" }])] []).voice_chats
          ("s", "c")).getD [], ¬ q.peer_id = "pA2") ∧
      (((alookup ((register_voice_peer (VoiceState.mk [(("s", "c"),
            [{ peer_id := "pA1", user_id := "u", conn_id := "c1" }])] [])
            "pA2" "u" "s" "c" "c2").1).voice_chats ("s", "c")).getD []).filter
            (fun p => p.user_id = "u")
          = [{ peer_id := "pA2", user_id := "u", conn_id := "c2" }] ∧
        (register_voice_peer (VoiceState.mk [(("s", "c"),
            [{ peer_id := "pA1", user_id := "u", conn_id := "c1" }])] [])
            "pA2" "u" "s" "c" "c2").2
          = (((alookup (VoiceState.mk [(("s", "c"),
              [{ peer_id := "pA1", user_id := "u", conn_id := "c1" }])] []).voice_chats
              ("s", "c")).getD []).filter (fun q => ¬ q.user_id = "u")).map
              (fun p => { peer_id := p.peer_id, user_id := p.user_id }) ∧
        ∀ r ∈ (register_voice_peer (VoiceState.mk [(("s", "c"),
            [{ peer_id := "pA1", user_id := "u", conn_id := "c1" }])] [])
            "pA2" "u" "s" "c" "c2").2, ¬ r.peer_id = "pA2") :=
  ⟨by decide, by decide,
   register_voice_peer_reconnect (VoiceState.mk [(("s", "c"),
     [{ peer_id := "pA1", user_id := "u", conn_id := "c1" }])] [])
     "pA2" "u" "s" "c" "c2" (by decide) (by decide)⟩

theorem foldl_filter_forall (rs : List (String × String)) (l : List VoicePeer) :
    rs.foldl (fun ps pr => ps.filter (fun p => ¬ p.peer_id = pr.1)) l
      = l.filter (fun p => ∀ pr ∈ rs, ¬ p.peer_id = pr.1) := by
  induction rs generalizing l with
  | nil => simp
  | cons r rest ih =>
      rw [List.foldl_cons, ih, List.filter_filter]
      apply List.filter_congr
      intro p _
      simp only [List.forall_mem_cons]
      by_cases hd : p.peer_id = r.1 <;>
        by_cases hrest : ∀ pr ∈ rest, ¬ p.peer_id = pr.1 <;>
        simp [hd, hrest]

theorem disconnect_chat_peers (conn : String) (peers : List VoicePeer)
    (h : (peers.map (fun p => p.peer_id)).Nodup) :
    (disconnect_chat conn peers).1 = peers.filter (fun p => ¬ p.conn_id = conn) := by
  unfold disconnect_chat
  dsimp only
  rw [foldl_filter_forall]
  apply List.filter_congr
  intro p hp
  simp only [decide_eq_decide]
  constructor
  · intro hall
    intro hc
    have hmem : (p.peer_id, p.user_id) ∈
        (peers.filter (fun q => q.conn_id = conn)).map (fun q => (q.peer_id, q.user_id)) := by
      apply List.mem_map_of_mem
      exact List.mem_filter.mpr ⟨hp, by simpa using hc⟩
    exact hall _ hmem rfl
  · intro hnc pr hpr hpid
    obtain ⟨q, hq, heq⟩ := List.mem_map.mp hpr
    have hqm := List.mem_of_mem_filter hq
    have hqc : q.conn_id = conn := by
      have := (List.mem_filter.mp hq).2
      simpa using this
    have hpid' : p.peer_id = q.peer_id := by rw [hpid, ← heq]
    have hpq : p = q := List.inj_on_of_nodup_map h hp hqm hpid'
    exact hnc (hpq ▸ hqc)

theorem disconnect_chat_removed (conn a b : String) (peers : List VoicePeer) :
    ((disconnect_chat conn peers).2).map (fun pr => (a, b, pr.1, pr.2))
      = (peers.filter (fun p => p.conn_id = conn)).map
          (fun p => (a, b, p.peer_id, p.user_id)) := by
  unfold disconnect_chat
  dsimp only
  rw [List.map_map]
  rfl

/-- C6 (amended): provided no two entries of a chat share a `peer_id`,
`handle_voice_disconnect(conn_id)` removes exactly the `VoicePeer`s whose
`conn_id` matches, keeps every other entry, deletes now-empty chats, and
returns exactly the `(server_id, chat_id, peer_id, user_id)` tuples of the
removed entries. (Without that proviso the claim is false: the retain pass
removes by `peer_id`, so an entry of a different connection sharing the
`peer_id` of a removed entry is removed as well — see the
counterexample.) -/
theorem handle_voice_disconnect_frame (st : VoiceState) (conn : String)
    (h : ∀ e ∈ st.voice_chats, (e.2.map (fun p => p.peer_id)).Nodup) :
    (handle_voice_disconnect st conn).1.voice_chats
        = (st.voice_chats.map
            (fun e => (e.1, e.2.filter (fun p => ¬ p.conn_id = conn)))).filter
            (fun e => ¬ e.2 = []) ∧
      (handle_voice_disconnect st conn).2
        = st.voice_chats.flatMap (fun e =>
            (e.2.filter (fun p => p.conn_id = conn)).map
              (fun p => (e.1.1, e.1.2, p.peer_id, p.user_id))) := by
  constructor
  · simp only [handle_voice_disconnect]
    congr 1
    apply List.map_congr_left
    intro e he
    rw [disconnect_chat_peers conn e.2 (h e he)]
  · simp only [handle_voice_disconnect]
    have hfun : (fun e : (String × String) × List VoicePeer =>
        ((disconnect_chat conn e.2).2).map (fun pr => (e.1.1, e.1.2, pr.1, pr.2)))
        = fun e => (e.2.filter (fun p => p.conn_id = conn)).map
            (fun p => (e.1.1, e.1.2, p.peer_id, p.user_id)) := by
      funext e
      exact disconnect_chat_removed conn e.1.1 e.1.2 e.2
    rw [hfun]

/-- C6 counterexample: a chat holding two entries that share `peer_id`
`"x"` but live on different connections. Disconnecting `"c1"` also removes
the entry of connection `"c2"` (whole chat deleted) and does not report
it, so entries whose `conn_id` differs are not left unchanged. -/
theorem handle_voice_disconnect_frame_cex :
    ({ peer_id := "x", user_id := "v", conn_id := "c2" } : VoicePeer) ∈
        (alookup (VoiceState.mk [(("s", "c"),
          [{ peer_id := "x", user_id := "u", conn_id := "c1" },
           { peer_id := "x", user_id := "v", conn_id := "c2" }])] []).voice_chats
          ("s", "c")).getD [] ∧
      ("c2" : String) ≠ "c1" ∧
      (handle_voice_disconnect (VoiceState.mk [(("s", "c"),
          [{ peer_id := "x", user_id := "u", conn_id := "c1" },
           { peer_id := "x", user_id := "v", conn_id := "c2" }])] [])
          "c1").1.voice_chats = [] ∧
      (handle_voice_disconnect (VoiceState.mk [(("s", "c"),
          [{ peer_id := "x", user_id := "u", conn_id := "c1" },
           { peer_id := "x", user_id := "v", conn_id := "c2" }])] [])
          "c1").2 = [("s", "c", "x", "u")] :=
  ⟨by decide, by decide, by decide, by decide⟩

/-- Chat state with distinct peer ids on two connections, used by the C6
witness. -/
def voiceDemoState : VoiceState :=
  VoiceState.mk [(("s", "c"),
    [{ peer_id := "a", user_id := "u", conn_id := "c1" },
     { peer_id := "b", user_id := "v", conn_id := "c2" }])] []

/-- C6 witness: concrete instantiation of `handle_voice_disconnect_frame`
on a chat with distinct peer ids, discharging the no-duplicate
hypothesis. -/
theorem handle_voice_disconnect_frame_witness :
    (∀ e ∈ voiceDemoState.voice_chats, (e.2.map (fun p => p.peer_id)).Nodup) ∧
      ((handle_voice_disconnect voiceDemoState "c1").1.voice_chats
          = (voiceDemoState.voice_chats.map
              (fun e => (e.1, e.2.filter (fun p => ¬ p.conn_id = "c1")))).filter
              (fun e => ¬ e.2 = []) ∧
        (handle_voice_disconnect voiceDemoState "c1").2
          = voiceDemoState.voice_chats.flatMap (fun e =>
              (e.2.filter (fun p => p.conn_id = "c1")).map
                (fun p => (e.1.1, e.1.2, p.peer_id, p.user_id)))) :=
  ⟨by decide, handle_voice_disconnect_frame voiceDemoState "c1" (by decide)⟩

-- ---------------------------------------------------------------------------
-- ConnectionTracker (src/signaling-server/src/security.rs:193-247)
-- ---------------------------------------------------------------------------

/-- Tracks WebSocket connection counts (struct `ConnectionTracker`). The
`u32` counters are embedded as `Nat` with every increment reduced modulo
`2 ^ 32` (release-mode wrapping arithmetic); `Nat` subtraction already
saturates at zero like `u32::saturating_sub`. -/
structure ConnectionTracker where
  total : Nat
  per_ip : List (String × Nat)
  max_total : Nat
  max_per_ip : Nat
deriving DecidableEq, Repr

/-- Embeds `ConnectionTracker::new`. -/
def ConnectionTracker.new (max_total max_per_ip : Nat) : ConnectionTracker :=
  { total := 0, per_ip := [], max_total := max_total, max_per_ip := max_per_ip }

/-- Current per-IP count: a missing entry counts as zero. -/
def ConnectionTracker.count (t : ConnectionTracker) (ip : String) : Nat :=
  (alookup t.per_ip ip).getD 0

/-- Embeds `ConnectionTracker::try_register` (security.rs:225-236); the
first component is the new tracker, the second is `true` for `Ok(())` and
`false` for `Err(())`. `(alookup t.per_ip ip).getD 0` is the value of the
Rust local `per`; the inner `if .isSome ...` materialises the zero entry
created by `entry(ip).or_insert(0)` before the per-IP check. -/
def ConnectionTracker.try_register (t : ConnectionTracker) (ip : String) :
    ConnectionTracker × Bool :=
  if t.max_total > 0 ∧ t.total ≥ t.max_total then (t, false)
  else if t.max_per_ip > 0 ∧ (alookup t.per_ip ip).getD 0 ≥ t.max_per_ip then
    ({ t with
        per_ip := if (alookup t.per_ip ip).isSome then t.per_ip
          else aupdate t.per_ip ip 0 }, false)
  else
    ({ t with
        total := (t.total + 1) % 2 ^ 32,
        per_ip := aupdate
          (if (alookup t.per_ip ip).isSome then t.per_ip else aupdate t.per_ip ip 0)
          ip (((alookup t.per_ip ip).getD 0 + 1) % 2 ^ 32) }, true)

/-- Embeds `ConnectionTracker::unregister` (security.rs:238-246). -/
def ConnectionTracker.unregister (t : ConnectionTracker) (ip : String) : ConnectionTracker :=
  let per_ip' :=
    match alookup t.per_ip ip with
    | some n =>
        let n' := n - 1
        if n' = 0 then aerase t.per_ip ip else aupdate t.per_ip ip n'
    | none => t.per_ip
  { t with per_ip := per_ip', total := t.total - 1 }

/-- C7 (amended): as long as the `u32` counters do not wrap (`total + 1`
and the per-IP count `+ 1` below `2 ^ 32`), `try_register(ip)` fails
exactly when `(max_total > 0 ∧ total ≥ max_total)` or
`(max_per_ip > 0 ∧ per_ip[ip] ≥ max_per_ip)`; on failure the tracker is
unchanged (so a failed registration does not count against the IP), and on
success both `total` and the count for `ip` increase by one while every
other IP count is untouched. -/
theorem try_register_spec (t : ConnectionTracker) (ip : String)
    (h1 : t.total + 1 < 2 ^ 32) (h2 : t.count ip + 1 < 2 ^ 32) :
    ((t.try_register ip).2 = false ↔
        (t.max_total > 0 ∧ t.total ≥ t.max_total) ∨
          (t.max_per_ip > 0 ∧ t.count ip ≥ t.max_per_ip)) ∧
      ((t.try_register ip).2 = false → (t.try_register ip).1 = t) ∧
      ((t.try_register ip).2 = true →
        (t.try_register ip).1.total = t.total + 1 ∧
          (t.try_register ip).1.count ip = t.count ip + 1 ∧
          ∀ j, ¬ j = ip → (t.try_register ip).1.count j = t.count j) := by
  unfold ConnectionTracker.try_register
  by_cases hA : t.max_total > 0 ∧ t.total ≥ t.max_total
  · rw [if_pos hA]
    refine ⟨⟨fun _ => Or.inl hA, fun _ => rfl⟩, fun _ => rfl, fun hc => by simp at hc⟩
  · rw [if_neg hA]
    by_cases hB : t.max_per_ip > 0 ∧ (alookup t.per_ip ip).getD 0 ≥ t.max_per_ip
    · have hsome : (alookup t.per_ip ip).isSome = true := by
        cases hlk : alookup t.per_ip ip with
        | none =>
            exfalso
            rw [hlk] at hB
            simp only [Option.getD_none] at hB
            omega
        | some n => rfl
      rw [if_pos hB, if_pos hsome]
      refine ⟨⟨fun _ => Or.inr hB, fun _ => rfl⟩, fun _ => rfl, fun hc => by simp at hc⟩
    · rw [if_neg hB]
      refine ⟨⟨fun hc => by simp at hc, fun hor => ?_⟩, fun hc => by simp at hc, fun _ => ?_⟩
      · exact absurd hor (by simp [hA, hB, ConnectionTracker.count])
      · refine ⟨Nat.mod_eq_of_lt h1, ?_, ?_⟩
        · simp only [ConnectionTracker.count, alookup_aupdate_self, Option.getD_some]
          exact Nat.mod_eq_of_lt h2
        · intro j hj
          simp only [ConnectionTracker.count]
          rw [alookup_aupdate_ne _ _ _ _ hj]
          by_cases hs : (alookup t.per_ip ip).isSome = true
          · rw [if_pos hs]
          · rw [if_neg hs, alookup_aupdate_ne _ _ _ _ hj]

/-- C7 counterexample: at the `u32` wrap point the claim as stated fails:
with no limits configured, registering when `total = 2^32 - 1` succeeds
but wraps `total` to `0` instead of increasing it by one, and likewise for
a per-IP count at `2^32 - 1`. -/
theorem try_register_spec_cex :
    ((ConnectionTracker.mk (2 ^ 32 - 1) [] 0 0).try_register "a").2 = true ∧
      ((ConnectionTracker.mk (2 ^ 32 - 1) [] 0 0).try_register "a").1.total = 0 ∧
      (ConnectionTracker.mk (2 ^ 32 - 1) [] 0 0).total + 1 ≠ 0 ∧
      ((ConnectionTracker.mk 0 [("a", 2 ^ 32 - 1)] 0 0).try_register "a").2 = true ∧
      ((ConnectionTracker.mk 0 [("a", 2 ^ 32 - 1)] 0 0).try_register "a").1.count "a" = 0 ∧
      (ConnectionTracker.mk 0 [("a", 2 ^ 32 - 1)] 0 0).count "a" + 1 ≠ 0 :=
  ⟨by decide, by decide, by decide, by decide, by decide, by decide⟩

/-- C7 witness: concrete instantiation of `try_register_spec` on a fresh
tracker with limits `max_total = 2`, `max_per_ip = 1`, discharging the
no-wrap hypotheses. -/
theorem try_register_spec_witness :
    ((ConnectionTracker.new 2 1).total + 1 < 2 ^ 32) ∧
      ((ConnectionTracker.new 2 1).count "a" + 1 < 2 ^ 32) ∧
      ((((ConnectionTracker.new 2 1).try_register "a").2 = false ↔
          ((ConnectionTracker.new 2 1).max_total > 0 ∧
              (ConnectionTracker.new 2 1).total ≥ (ConnectionTracker.new 2 1).max_total) ∨
            ((ConnectionTracker.new 2 1).max_per_ip > 0 ∧
              (ConnectionTracker.new 2 1).count "a" ≥ (ConnectionTracker.new 2 1).max_per_ip)) ∧
        (((ConnectionTracker.new 2 1).try_register "a").2 = false →
          ((ConnectionTracker.new 2 1).try_register "a").1 = ConnectionTracker.new 2 1) ∧
        (((ConnectionTracker.new 2 1).try_register "a").2 = true →
          ((ConnectionTracker.new 2 1).try_register "a").1.total =
              (ConnectionTracker.new 2 1).total + 1 ∧
            ((ConnectionTracker.new 2 1).try_register "a").1.count "a" =
              (ConnectionTracker.new 2 1).count "a" + 1 ∧
            ∀ j, ¬ j = "a" →
              ((ConnectionTracker.new 2 1).try_register "a").1.count j =
                (ConnectionTracker.new 2 1).count j)) :=
  ⟨by decide, by decide, try_register_spec (ConnectionTracker.new 2 1) "a" (by decide) (by decide)⟩

-- ---------------------------------------------------------------------------
-- Redis presence backend (src/beacon-server/src/handlers/redis.rs)
-- ---------------------------------------------------------------------------

/-- Embeds `redis_user_key` (redis.rs:7-9). -/
def redis_user_key (user_id : String) : String :=
  "presence:user:" ++ user_id

/-- Embeds `redis_server_key` (redis.rs:13-15); "house" is kept in the key
for backward compatibility with existing data. -/
def redis_server_key (signing_pubkey : String) : String :=
  "presence:house:" ++ signing_pubkey

/-- Presence status returned by `snapshot` (struct `PresenceUserStatus`). -/
structure PresenceUserStatus where
  user_id : String
  active_signing_pubkey : Option String
deriving DecidableEq, Repr

/-- Key-value store state touched by the presence handlers: `hashes` maps
a user key to the value of its single used field `active_signing_pubkey`
(the hash exists iff the key is present), `sets` maps a server key to its
members, `ttls` records the last `EXPIRE` per key. -/
structure RedisStore where
  hashes : List (String × String)
  sets : List (String × List String)
  ttls : List (String × Int)
deriving DecidableEq, Repr

/-- Embeds the Redis `SREM key members...` command used by the snapshot
repair step (redis.rs:137-142), including Redis's automatic deletion of a
set key that becomes empty. -/
def srem_members (sets : List (String × List String)) (key : String) (members : List String) :
    List (String × List String) :=
  match alookup sets key with
  | some s =>
      let s' := s.filter (fun m => ¬ m ∈ members)
      if s' = [] then aerase sets key else aupdate sets key s'
  | none => sets

/-- Embeds `redis_presence_snapshot` (redis.rs:91-146): read the reverse
set, `HGET` each member's active key, convert the empty string back to
absent, and `SREM` the stale member ids from the reverse set. Returns the
statuses and the store after the repair write. -/
def redis_presence_snapshot (st : RedisStore) (signing_pubkey : String) :
    List PresenceUserStatus × RedisStore :=
  let server_key := redis_server_key signing_pubkey
  let user_ids := (alookup st.sets server_key).getD []
  if user_ids = [] then ([], st)
  else
    let active_values := user_ids.map (fun uid => alookup st.hashes (redis_user_key uid))
    let res := (user_ids.zip active_values).foldl
      (fun acc p =>
        match p.2 with
        | some active_value =>
            (acc.1 ++ [PresenceUserStatus.mk p.1
               (if active_value = "" then none else some active_value)], acc.2)
        | none => (acc.1, acc.2 ++ [p.1]))
      ([], [])
    if res.2 = [] then (res.1, st)
    else (res.1, { st with sets := srem_members st.sets server_key res.2 })

theorem zip_map_self {α β : Type} (l : List α) (f : α → β) :
    l.zip (l.map f) = l.map (fun a => (a, f a)) := by
  induction l with
  | nil => rfl
  | cons x t ih => simp [ih]

theorem snapshot_fold_eq (f : String → Option String) (uids : List String)
    (acc1 : List PresenceUserStatus) (acc2 : List String) :
    (uids.map (fun u => (u, f u))).foldl
        (fun acc p =>
          match p.2 with
          | some active_value =>
              (acc.1 ++ [PresenceUserStatus.mk p.1
                 (if active_value = "" then none else some active_value)], acc.2)
          | none => (acc.1, acc.2 ++ [p.1]))
        (acc1, acc2)
      = (acc1 ++ uids.filterMap (fun uid => (f uid).map
            (fun v => PresenceUserStatus.mk uid (if v = "" then none else some v))),
         acc2 ++ uids.filter (fun uid => (f uid).isNone)) := by
  induction uids generalizing acc1 acc2 with
  | nil => simp
  | cons u t ih =>
      cases hu : f u with
      | some v => simp [hu, ih]
      | none => simp [hu, ih]

theorem srem_members_get_self (sets : List (String × List String)) (key : String)
    (ms : List String) :
    (alookup (srem_members sets key ms) key).getD []
      = ((alookup sets key).getD []).filter (fun m => ¬ m ∈ ms) := by
  unfold srem_members
  cases hlk : alookup sets key with
  | none =>
      dsimp only
      rw [hlk]
      rfl
  | some s =>
      dsimp only
      by_cases hs : s.filter (fun m => ¬ m ∈ ms) = []
      · rw [if_pos hs, alookup_aerase_self]
        exact hs.symm
      · rw [if_neg hs, alookup_aupdate_self]
        rfl

theorem srem_members_get_ne (sets : List (String × List String)) (key k : String)
    (ms : List String) (h : ¬ k = key) :
    alookup (srem_members sets key ms) k = alookup sets k := by
  unfold srem_members
  cases hlk : alookup sets key with
  | none => rfl
  | some s =>
      dsimp only
      by_cases hs : s.filter (fun m => ¬ m ∈ ms) = []
      · rw [if_pos hs]
        exact alookup_aerase_ne _ _ _ h
      · rw [if_neg hs]
        exact alookup_aupdate_ne _ _ _ _ h

/-- C5 (confirmed): `redis_presence_snapshot(signing_pubkey)` returns
exactly the users listed in the reverse set `presence:house:{key}` whose
user record `presence:user:{user_id}` still exists, each with
`active_signing_pubkey = none` when the stored field is the empty string
and `some value` otherwise; every user id whose record is absent is
removed from the reverse set by the same operation, and nothing else in
the store is touched. -/
theorem redis_presence_snapshot_spec (st : RedisStore) (spk : String) :
    (redis_presence_snapshot st spk).1
        = ((alookup st.sets (redis_server_key spk)).getD []).filterMap
            (fun uid => (alookup st.hashes (redis_user_key uid)).map
              (fun v => PresenceUserStatus.mk uid (if v = "" then none else some v))) ∧
      (alookup ((redis_presence_snapshot st spk).2).sets (redis_server_key spk)).getD []
        = ((alookup st.sets (redis_server_key spk)).getD []).filter
            (fun uid => (alookup st.hashes (redis_user_key uid)).isSome) ∧
      ((redis_presence_snapshot st spk).2).hashes = st.hashes ∧
      ((redis_presence_snapshot st spk).2).ttls = st.ttls ∧
      ∀ k, ¬ k = redis_server_key spk →
        alookup ((redis_presence_snapshot st spk).2).sets k = alookup st.sets k := by
  simp only [redis_presence_snapshot]
  rw [zip_map_self, snapshot_fold_eq]
  simp only [List.nil_append]
  by_cases hu : (alookup st.sets (redis_server_key spk)).getD [] = []
  · rw [if_pos hu]
    refine ⟨by simp [hu], by simp [hu], rfl, rfl, fun k hk => rfl⟩
  · rw [if_neg hu]
    by_cases hstale : ((alookup st.sets (redis_server_key spk)).getD []).filter
        (fun uid => (alookup st.hashes (redis_user_key uid)).isNone) = []
    · rw [if_pos hstale]
      refine ⟨rfl, ?_, rfl, rfl, fun k hk => rfl⟩
      have hall := List.filter_eq_nil_iff.mp hstale
      refine (List.filter_eq_self.mpr ?_).symm
      intro uid hm
      have := hall uid hm
      cases hf : alookup st.hashes (redis_user_key uid) with
      | none => exact absurd (by simp [hf]) this
      | some v => simp
    · rw [if_neg hstale]
      refine ⟨rfl, ?_, rfl, rfl, fun k hk => srem_members_get_ne _ _ _ _ hk⟩
      dsimp only
      rw [srem_members_get_self]
      apply List.filter_congr
      intro uid hm
      cases hf : alookup st.hashes (redis_user_key uid) <;>
        simp [List.mem_filter, hm, hf]

/-- One primitive write command queued on a Redis pipeline by the
presence handlers. -/
inductive RedisOp where
  | hset (key field value : String)
  | expire (key : String) (ttl_secs : Int)
  | sadd (key member : String)
deriving DecidableEq, Repr

/-- Pipeline built by `redis_presence_hello` (redis.rs:18-43): `HSET` the
user's active key (absent encoded as the empty string), `EXPIRE` the user
record, and `SADD` the user into every listed signing key's reverse set. -/
def redis_presence_hello_ops (ttl_secs : Nat) (user_id : String)
    (signing_pubkeys : List String) (active_signing_pubkey : Option String) : List RedisOp :=
  [RedisOp.hset (redis_user_key user_id) "active_signing_pubkey"
     (active_signing_pubkey.getD ""),
   RedisOp.expire (redis_user_key user_id) (ttl_secs : Int)]
    ++ signing_pubkeys.map (fun spk => RedisOp.sadd (redis_server_key spk) user_id)

/-- Pipeline built by `redis_presence_refresh` (redis.rs:149-176): early
return on an empty user list, otherwise the same per-user commands as
`hello`, queued for every user in order. -/
def redis_presence_refresh_ops (ttl_secs : Nat)
    (users : List (String × List String × Option String)) : List RedisOp :=
  if users = [] then []
  else users.flatMap (fun u =>
    [RedisOp.hset (redis_user_key u.1) "active_signing_pubkey" (u.2.2.getD ""),
     RedisOp.expire (redis_user_key u.1) (ttl_secs : Int)]
      ++ u.2.1.map (fun spk => RedisOp.sadd (redis_server_key spk) u.1))

/-- Effect of one pipeline command on the store (the `field` of `HSET` is
always `active_signing_pubkey` here, so the hash is a single cell). -/
def apply_redis_op (st : RedisStore) : RedisOp → RedisStore
  | RedisOp.hset key _field value => { st with hashes := aupdate st.hashes key value }
  | RedisOp.expire key t => { st with ttls := aupdate st.ttls key t }
  | RedisOp.sadd key member =>
      { st with sets := aupdate st.sets key (sinsert (sets_get st.sets key) member) }

/-- Effect of a whole pipeline, in order. -/
def apply_redis_ops (st : RedisStore) (ops : List RedisOp) : RedisStore :=
  ops.foldl apply_redis_op st

/-- C8 (confirmed): the batch `redis_presence_refresh` queues exactly the
concatenation of the `redis_presence_hello` pipelines of its elements, so
it performs the same writes as calling `hello` sequentially for each
element; on the empty list it performs no store operation at all. -/
theorem redis_presence_refresh_refines_hello (ttl_secs : Nat)
    (users : List (String × List String × Option String)) :
    redis_presence_refresh_ops ttl_secs users
        = users.flatMap (fun u => redis_presence_hello_ops ttl_secs u.1 u.2.1 u.2.2) ∧
      redis_presence_refresh_ops ttl_secs [] = [] ∧
      ∀ st, apply_redis_ops st (redis_presence_refresh_ops ttl_secs users)
        = users.foldl (fun s u => apply_redis_ops s (redis_presence_hello_ops ttl_secs u.1 u.2.1 u.2.2)) st := by
  have hflat : redis_presence_refresh_ops ttl_secs users
      = users.flatMap (fun u => redis_presence_hello_ops ttl_secs u.1 u.2.1 u.2.2) := by
    unfold redis_presence_refresh_ops redis_presence_hello_ops
    by_cases hu : users = []
    · rw [if_pos hu, hu]
      rfl
    · rw [if_neg hu]
  refine ⟨hflat, rfl, ?_⟩
  intro st
  rw [hflat]
  clear hflat
  induction users generalizing st with
  | nil => rfl
  | cons u t ih =>
      rw [List.flatMap_cons, List.foldl_cons]
      unfold apply_redis_ops
      rw [List.foldl_append]
      exact ih _

-- ---------------------------------------------------------------------------
-- Client IP middleware (src/signaling-server/src/security.rs:113-126)
-- ---------------------------------------------------------------------------

/-- Rust `str::trim`: strip leading and trailing whitespace. -/
def str_trim (s : List Char) : List Char :=
  ((s.dropWhile Char.isWhitespace).reverse.dropWhile Char.isWhitespace).reverse

/-- First piece yielded by Rust `s.split(',').next()`: the characters
before the first comma (the whole string when there is none). -/
def split_first_comma (s : List Char) : List Char :=
  s.takeWhile (fun c => ¬ c = ',')

/-- The two headers read by `client_ip_middleware`. The outer `Option` is
header presence (`headers().get(..)`); the inner `Option` is whether
`HeaderValue::to_str()` succeeds (readable), with the readable text as a
character list. -/
structure RequestHeaders where
  cf_connecting_ip : Option (Option (List Char))
  x_forwarded_for : Option (Option (List Char))

/-- Embeds the IP extraction of `client_ip_middleware`
(security.rs:114-121): `get("cf-connecting-ip").or_else(get
"x-forwarded-for").and_then(to_str).and_then(split(',').next()).map(trim)
.unwrap_or("unknown")`. The `split(',').next()` step always yields a
value, hence the plain `map`. -/
def client_ip (req : RequestHeaders) : String :=
  (((req.cf_connecting_ip.or req.x_forwarded_for).bind id).map
      (fun s => String.mk (str_trim (split_first_comma s)))).getD "unknown"

/-- C9 (amended): the attached client IP is the trimmed first comma-token
of `CF-Connecting-IP` when that header is present and readable; it is the
literal `"unknown"` when that header is present but unreadable (the code
does not fall back to `X-Forwarded-For` in that case); otherwise it is the
trimmed first comma-token of `X-Forwarded-For` when present and readable,
and `"unknown"` in every remaining case. -/
theorem client_ip_spec (req : RequestHeaders) :
    client_ip req =
      match req.cf_connecting_ip with
      | some (some s) => String.mk (str_trim (split_first_comma s))
      | some none => "unknown"
      | none =>
          match req.x_forwarded_for with
          | some (some s) => String.mk (str_trim (split_first_comma s))
          | some none => "unknown"
          | none => "unknown" := by
  cases hcf : req.cf_connecting_ip with
  | some v => cases v <;> simp [client_ip, Option.or, hcf]
  | none =>
      cases hx : req.x_forwarded_for with
      | some v => cases v <;> simp [client_ip, Option.or, hcf, hx]
      | none => simp [client_ip, Option.or, hcf, hx]

/-- C9 counterexample: `CF-Connecting-IP` present but unreadable while
`X-Forwarded-For` readably carries `1.2.3.4`: the middleware attaches
`"unknown"`, not the X-Forwarded-For token the claim requires. -/
theorem client_ip_spec_cex :
    client_ip (RequestHeaders.mk (some none) (some (some "1.2.3.4".data))) = "unknown" ∧
      String.mk (str_trim (split_first_comma "1.2.3.4".data)) = "1.2.3.4" ∧
      ("unknown" : String) ≠ "1.2.3.4" :=
  ⟨rfl, by decide, by decide⟩

-- ---------------------------------------------------------------------------
-- Client health checks (src/src-tauri/src/beacon.rs, src/src-tauri/src/signaling.rs)
-- ---------------------------------------------------------------------------

/-- Rust `str::starts_with`. -/
def str_starts_with (s p : List Char) : Bool :=
  p.isPrefixOf s

/-- Rust `str::replace` (all occurrences, left to right, non-overlapping),
written with an explicit fuel so the recursion is structural; `fuel =
s.length` always suffices since each step consumes at least one
character. -/
def replace_all_fuel (pat rep : List Char) : Nat → List Char → List Char
  | 0, s => s
  | _fuel + 1, [] => []
  | fuel + 1, c :: rest =>
      if pat.isPrefixOf (c :: rest) then
        rep ++ replace_all_fuel pat rep fuel ((c :: rest).drop pat.length)
      else c :: replace_all_fuel pat rep fuel rest

/-- Rust `str::replace` at adequate fuel. -/
def replace_all (pat rep s : List Char) : List Char :=
  replace_all_fuel pat rep s.length s

/-- Rust `str::trim_end_matches('/')`: remove all trailing slashes. -/
def trim_end_slashes (s : List Char) : List Char :=
  (s.reverse.dropWhile (fun c => c = '/')).reverse

/-- Health URL derivation shared by beacon.rs:36-42 and
signaling.rs:34-41: scheme rewritten `wss → https` / `ws → http`, trailing
slashes removed, `/health` appended. -/
def derive_health_url (url : List Char) : List Char :=
  (trim_end_slashes
      (if str_starts_with url "wss://".data then
        replace_all "wss://".data "https://".data url
      else replace_all "ws://".data "http://".data url))
    ++ "/health".data

/-- Outcome of the HTTP GET attempt against the health URL, as an oracle
parameter: `success` is a 2xx response, `httpError` a non-success status,
`sendError` any transport failure (also covering the client-builder
failure path, which produces the same `ConnectionFailed` error). -/
inductive HttpOutcome where
  | success
  | httpError (status : Nat)
  | sendError (msg : String)
deriving DecidableEq, Repr

/-- Error type of `check_beacon_health` (enum `BeaconError`). -/
inductive BeaconError where
  | ConnectionFailed (msg : String)
  | Timeout
  | InvalidUrl (msg : String)
deriving DecidableEq, Repr

/-- Error type of `check_signaling_health` (enum `SignalingError`). -/
inductive SignalingError where
  | ConnectionFailed (msg : String)
  | Timeout
  | InvalidUrl (msg : String)
deriving DecidableEq, Repr

/-- Embeds `check_beacon_health` (beacon.rs:23-63). Note the input URL is
trimmed (beacon.rs:25) before the scheme check. -/
def check_beacon_health (url : String) (resp : List Char → HttpOutcome) :
    Except BeaconError Bool :=
  if ¬ str_starts_with (str_trim url.data) "ws://".data ∧
      ¬ str_starts_with (str_trim url.data) "wss://".data then
    Except.error (BeaconError.InvalidUrl "URL must start with ws:// or wss://")
  else
    match resp (derive_health_url (str_trim url.data)) with
    | HttpOutcome.success => Except.ok true
    | HttpOutcome.httpError status =>
        Except.error (BeaconError.ConnectionFailed
          ("HTTP " ++ toString status ++ " from health endpoint"))
    | HttpOutcome.sendError e => Except.error (BeaconError.ConnectionFailed e)

/-- Embeds `check_signaling_health` (signaling.rs:23-63); identical to the
beacon check except that the URL is **not** trimmed. -/
def check_signaling_health (url : String) (resp : List Char → HttpOutcome) :
    Except SignalingError Bool :=
  if ¬ str_starts_with url.data "ws://".data ∧
      ¬ str_starts_with url.data "wss://".data then
    Except.error (SignalingError.InvalidUrl "URL must start with ws:// or wss://")
  else
    match resp (derive_health_url url.data) with
    | HttpOutcome.success => Except.ok true
    | HttpOutcome.httpError status =>
        Except.error (SignalingError.ConnectionFailed
          ("HTTP " ++ toString status ++ " from health endpoint"))
    | HttpOutcome.sendError e => Except.error (SignalingError.ConnectionFailed e)

theorem beacon_health_cases (url : String) (resp : List Char → HttpOutcome) :
    check_beacon_health url resp ≠ Except.ok false ∧
      (check_beacon_health url resp = Except.ok true ↔
        ((str_starts_with (str_trim url.data) "ws://".data ∨
            str_starts_with (str_trim url.data) "wss://".data) ∧
          resp (derive_health_url (str_trim url.data)) = HttpOutcome.success)) ∧
      (¬ ((str_starts_with (str_trim url.data) "ws://".data ∨
            str_starts_with (str_trim url.data) "wss://".data) ∧
          resp (derive_health_url (str_trim url.data)) = HttpOutcome.success) →
        ∃ e, check_beacon_health url resp = Except.error e) := by
  unfold check_beacon_health
  by_cases h : ¬ str_starts_with (str_trim url.data) "ws://".data ∧
      ¬ str_starts_with (str_trim url.data) "wss://".data
  · rw [if_pos h]
    refine ⟨by simp, by simp [h.1, h.2], fun _ => ⟨_, rfl⟩⟩
  · rw [if_neg h]
    have hor : str_starts_with (str_trim url.data) "ws://".data = true ∨
        str_starts_with (str_trim url.data) "wss://".data = true := by tauto
    cases hr : resp (derive_health_url (str_trim url.data)) with
    | success =>
        refine ⟨by simp, ⟨fun _ => ⟨hor, rfl⟩, fun _ => rfl⟩, ?_⟩
        intro hc
        exact absurd ⟨hor, rfl⟩ hc
    | httpError status =>
        refine ⟨by simp, ⟨fun hc => by simp at hc, fun hcond => by simp at hcond⟩,
          fun _ => ⟨_, rfl⟩⟩
    | sendError e =>
        refine ⟨by simp, ⟨fun hc => by simp at hc, fun hcond => by simp at hcond⟩,
          fun _ => ⟨_, rfl⟩⟩

theorem signaling_health_cases (url : String) (resp : List Char → HttpOutcome) :
    check_signaling_health url resp ≠ Except.ok false ∧
      (check_signaling_health url resp = Except.ok true ↔
        ((str_starts_with url.data "ws://".data ∨ str_starts_with url.data "wss://".data) ∧
          resp (derive_health_url url.data) = HttpOutcome.success)) ∧
      (¬ ((str_starts_with url.data "ws://".data ∨ str_starts_with url.data "wss://".data) ∧
          resp (derive_health_url url.data) = HttpOutcome.success) →
        ∃ e, check_signaling_health url resp = Except.error e) := by
  unfold check_signaling_health
  by_cases h : ¬ str_starts_with url.data "ws://".data ∧
      ¬ str_starts_with url.data "wss://".data
  · rw [if_pos h]
    refine ⟨by simp, by simp [h.1, h.2], fun _ => ⟨_, rfl⟩⟩
  · rw [if_neg h]
    have hor : str_starts_with url.data "ws://".data = true ∨
        str_starts_with url.data "wss://".data = true := by tauto
    cases hr : resp (derive_health_url url.data) with
    | success =>
        refine ⟨by simp, ⟨fun _ => ⟨hor, rfl⟩, fun _ => rfl⟩, ?_⟩
        intro hc
        exact absurd ⟨hor, rfl⟩ hc
    | httpError status =>
        refine ⟨by simp, ⟨fun hc => by simp at hc, fun hcond => by simp at hcond⟩,
          fun _ => ⟨_, rfl⟩⟩
    | sendError e =>
        refine ⟨by simp, ⟨fun hc => by simp at hc, fun hcond => by simp at hcond⟩,
          fun _ => ⟨_, rfl⟩⟩

/-- C10 (amended): neither health check ever returns `Ok(false)`; each
returns `Ok(true)` exactly when its scheme check passes — on the trimmed
URL for the beacon check, on the raw URL for the signaling check — and the
derived `/health` endpoint answers success; in every other case it returns
an `Err` (`InvalidUrl` or `ConnectionFailed`). -/
theorem health_check_spec (url : String) (resp : List Char → HttpOutcome) :
    check_beacon_health url resp ≠ Except.ok false ∧
      check_signaling_health url resp ≠ Except.ok false ∧
      (check_beacon_health url resp = Except.ok true ↔
        ((str_starts_with (str_trim url.data) "ws://".data ∨
            str_starts_with (str_trim url.data) "wss://".data) ∧
          resp (derive_health_url (str_trim url.data)) = HttpOutcome.success)) ∧
      (check_signaling_health url resp = Except.ok true ↔
        ((str_starts_with url.data "ws://".data ∨ str_starts_with url.data "wss://".data) ∧
          resp (derive_health_url url.data) = HttpOutcome.success)) ∧
      (¬ ((str_starts_with (str_trim url.data) "ws://".data ∨
            str_starts_with (str_trim url.data) "wss://".data) ∧
          resp (derive_health_url (str_trim url.data)) = HttpOutcome.success) →
        ∃ e, check_beacon_health url resp = Except.error e) ∧
      (¬ ((str_starts_with url.data "ws://".data ∨ str_starts_with url.data "wss://".data) ∧
          resp (derive_health_url url.data) = HttpOutcome.success) →
        ∃ e, check_signaling_health url resp = Except.error e) :=
  ⟨(beacon_health_cases url resp).1, (signaling_health_cases url resp).1,
   (beacon_health_cases url resp).2.1, (signaling_health_cases url resp).2.1,
   (beacon_health_cases url resp).2.2, (signaling_health_cases url resp).2.2⟩

/-- C10 counterexample: on the input `" ws://a"` (leading space) with a
healthy endpoint, `check_beacon_health` trims and returns `Ok(true)` even
though the URL does not start with `ws://` or `wss://`, so the claim's
"returns an Err in every other case" is false as stated (and the two
functions genuinely differ: `check_signaling_health` rejects the same
input with `InvalidUrl`). -/
theorem health_check_spec_cex :
    check_beacon_health " ws://a" (fun _ => HttpOutcome.success) = Except.ok true ∧
      str_starts_with " ws://a".data "ws://".data = false ∧
      str_starts_with " ws://a".data "wss://".data = false ∧
      check_signaling_health " ws://a" (fun _ => HttpOutcome.success)
        = Except.error (SignalingError.InvalidUrl "URL must start with ws:// or wss://") :=
  ⟨rfl, by decide, by decide, rfl⟩
